import Mathlib

/-
Shallow embedding of the Surround360 color-calibration pipeline
(surround360_render/source/calibration/ColorCalibration.cpp).

Conventions used throughout this development:
- float / double arithmetic of the source is idealised as exact rational
  arithmetic over the field of rationals;
- Euclidean norms and distances are only ever compared in the source, so they
  are represented here by their squares (squaring is monotone on nonnegative
  reals); every such spot carries a comment;
- the OpenCV / CameraIsp primitives that the spec declares external
  (thresholding, connected components, contour extraction, minimal rectangles
  and circles, the mosaic classification) are abstracted: their per-object
  results become fields of the input records of the functions embedded here;
- fallible container accesses are embedded with Option: a C++ out-of-bounds
  vector read becomes the value none.
-/

namespace ColorCalib

/-- Three-channel value (cv Vec3f), one rational per channel. -/
structure Vec3 where
  c0 : ℚ
  c1 : ℚ
  c2 : ℚ
deriving DecidableEq

/-- Four-component error vector (cv Vec4f). -/
structure Vec4 where
  e0 : ℚ
  e1 : ℚ
  e2 : ℚ
  e3 : ℚ
deriving DecidableEq

/-- Componentwise difference of two Vec3 values. -/
def v3sub (a b : Vec3) : Vec3 := ⟨a.c0 - b.c0, a.c1 - b.c1, a.c2 - b.c2⟩

/-- Scaling of a Vec3 by a rational. -/
def v3scale (s : ℚ) (a : Vec3) : Vec3 := ⟨s * a.c0, s * a.c1, s * a.c2⟩

/-- Squared Euclidean norm of a Vec3. The source compares norm values
(cv norm, L2); all comparisons here go through the squares, which agree
with the original comparisons because squaring is monotone on
nonnegative reals. -/
def normSq (v : Vec3) : ℚ := v.c0 ^ 2 + v.c1 ^ 2 + v.c2 ^ 2

/-- A detected chart patch: centroid, pixel mask (the set of nonzero mask
locations), and the per-channel median, exactly the ColorPatch record of the
spec data model. -/
structure ColorPatch where
  centroid : ℚ × ℚ
  mask : List (ℤ × ℤ)
  rgbMedian : Vec3
deriving DecidableEq

/-- Placeholder patch used to totalise indexed accesses that are in bounds in
the source. -/
def dummyPatch : ColorPatch := ⟨(0, 0), [], ⟨0, 0, 0⟩⟩

/-- Modelled from the spec: the reference chart table rgbLinearMacbeth lives
in ColorCalibration.h, which is not among the sources here. Per the spec it
is a fixed ordered table of 24 rows of 3 integers in [0,255], raster order
matching the physical chart, whose last 6 rows are a neutral gray ramp from
brightest (row 18) to darkest (row 23). Representative published MacBeth
colors fill the rows the spec leaves unspecified. -/
def rgbLinearMacbeth : List (List ℤ) :=
  [[115, 82, 68], [194, 150, 130], [98, 122, 157], [87, 108, 67],
   [133, 128, 177], [103, 189, 170], [214, 126, 44], [80, 91, 166],
   [193, 90, 99], [94, 60, 108], [157, 188, 64], [224, 163, 46],
   [56, 61, 150], [70, 148, 73], [175, 54, 60], [231, 199, 31],
   [187, 86, 149], [8, 133, 161], [243, 243, 243], [200, 200, 200],
   [160, 160, 160], [122, 122, 122], [85, 85, 85], [52, 52, 52]]

/-- Row i of the reference table as a Vec3 of rationals. -/
def macbethVec (i : ℕ) : Vec3 :=
  let row := rgbLinearMacbeth.getD i []
  ⟨(row.getD 0 0 : ℤ), (row.getD 1 0 : ℤ), (row.getD 2 0 : ℤ)⟩

/-- getMacBethGrays of the source. The loop
for (int i = iStart; i >= iStart - kNumGrayPatches; --i) with
kNumGrayPatches = 5 runs for i = iStart, iStart-1, ..., iStart-5, that is
kNumGrayPatches + 1 iterations, pushing rgbLinearMacbeth[i][0] each time
(all accesses in bounds for the 24-row table). -/
def getMacBethGrays : List ℤ :=
  let kNumGrayPatches := 5
  let iStart := rgbLinearMacbeth.length - 1
  (List.range (kNumGrayPatches + 1)).map
    (fun k => (rgbLinearMacbeth.getD (iStart - k) []).getD 0 0)

/-- Per-channel linear response, the ColorResponse record of the source. -/
structure ColorResponse where
  rgbSlope : Vec3
  rgbInterceptY : Vec3
  rgbInterceptXMin : Vec3
  rgbInterceptXMax : Vec3
deriving DecidableEq

/-- Body of the per-channel loop of computeRGBResponse: given the x and y
values of the dark and bright gray samples it returns
(slope, interceptY, interceptXMin, interceptXMax) exactly as the four
assignments of the source compute them. -/
def computeRGBResponseChannel (xDark xBright yDark yBright : ℚ) :
    ℚ × ℚ × ℚ × ℚ :=
  let slope := (yBright - yDark) / (xBright - xDark)
  let interceptY := -slope * xDark + yDark
  let interceptXMin := -interceptY / slope
  let interceptXMax := (1 - interceptY) / slope
  (slope, interceptY, interceptXMin, interceptXMax)

/-- computeRGBResponse of the source, with the preparatory median pass
(computeRGBMedians) already reflected in the rgbMedian fields of the given
patches, and the debug plotting omitted (it does not feed the result).
kDarkIdx = 1 and kBrightIdx = 4 select the second darkest and second
brightest grays, and the y samples come from the patches at the mirrored
offsets from the end of the patch list. -/
def computeRGBResponse (colorPatches : List ColorPatch) : ColorResponse :=
  let macBethGrayValues := getMacBethGrays
  let iStart := colorPatches.length - 1
  let kBrightIdx := 4
  let kDarkIdx := 1
  let xDark : ℚ := (macBethGrayValues.getD kDarkIdx 0 : ℤ) / 255
  let xBright : ℚ := (macBethGrayValues.getD kBrightIdx 0 : ℤ) / 255
  let yDark := (colorPatches.getD (iStart - kDarkIdx) dummyPatch).rgbMedian
  let yBright := (colorPatches.getD (iStart - kBrightIdx) dummyPatch).rgbMedian
  let r0 := computeRGBResponseChannel xDark xBright yDark.c0 yBright.c0
  let r1 := computeRGBResponseChannel xDark xBright yDark.c1 yBright.c1
  let r2 := computeRGBResponseChannel xDark xBright yDark.c2 yBright.c2
  { rgbSlope := ⟨r0.1, r1.1, r2.1⟩
    rgbInterceptY := ⟨r0.2.1, r1.2.1, r2.2.1⟩
    rgbInterceptXMin := ⟨r0.2.2.1, r1.2.2.1, r2.2.2.1⟩
    rgbInterceptXMax := ⟨r0.2.2.2, r1.2.2.2, r2.2.2.2⟩ }

/-- Clamp-bound computation of clampAndStretch. The source reads the single
configured threshold xMin from component 0 of the incoming clamp-min vector
and xMax from component 0 of the incoming clamp-max vector, maps both through
the fitted line of every channel, and then clips the minima from below at 0
and the maxima from above at 1 (the per-channel loop applies max(0, .) to the
minima only and min(1, .) to the maxima only). The ISP calls that follow in
the source only consume these bounds and are external. -/
def clampAndStretchBounds (colorResponse : ColorResponse)
    (rgbClampMinIn rgbClampMaxIn : Vec3) : Vec3 × Vec3 :=
  let m := colorResponse.rgbSlope
  let b := colorResponse.rgbInterceptY
  let xMin := rgbClampMinIn.c0
  let xMax := rgbClampMaxIn.c0
  let rgbClampMin : Vec3 :=
    ⟨m.c0 * xMin + b.c0, m.c1 * xMin + b.c1, m.c2 * xMin + b.c2⟩
  let rgbClampMax : Vec3 :=
    ⟨m.c0 * xMax + b.c0, m.c1 * xMax + b.c1, m.c2 * xMax + b.c2⟩
  (⟨max 0 rgbClampMin.c0, max 0 rgbClampMin.c1, max 0 rgbClampMin.c2⟩,
   ⟨min 1 rgbClampMax.c0, min 1 rgbClampMax.c1, min 1 rgbClampMax.c2⟩)

/-- Median selection of getRgbMedianMask on one channel bucket:
nth_element places the element of sorted rank size/2 at position size/2 and
the source then reads RGBs[ch][size/2], so the value read is the entry of
rank size/2 of the sorted bucket. On an empty bucket the source read is out
of bounds (undefined behaviour), embedded as none. -/
def medianSelect (bucket : List ℚ) : Option ℚ :=
  (bucket.mergeSort (fun a b => a ≤ b)).get? (bucket.length / 2)

/-- Bucket construction of getRgbMedianMask: every nonzero mask location
contributes, in mask order, either its raw value to the single bucket chosen
by the mosaic classification (isRaw) or its full three-channel value to all
three buckets. The mosaic classification (CameraIsp redPixel / greenPixel)
is external and abstracted as channelOf. -/
def rgbBuckets (locs : List (ℤ × ℤ)) (isRaw : Bool)
    (rawVal : ℤ × ℤ → ℚ) (rgbVal : ℤ × ℤ → Vec3)
    (channelOf : ℤ × ℤ → Fin 3) : List ℚ × List ℚ × List ℚ :=
  locs.foldl
    (fun acc p =>
      if isRaw then
        match channelOf p with
        | 0 => (acc.1 ++ [rawVal p], acc.2.1, acc.2.2)
        | 1 => (acc.1, acc.2.1 ++ [rawVal p], acc.2.2)
        | 2 => (acc.1, acc.2.1, acc.2.2 ++ [rawVal p])
      else
        let v := rgbVal p
        (acc.1 ++ [v.c0], acc.2.1 ++ [v.c1], acc.2.2 ++ [v.c2]))
    ([], [], [])

/-- Combination of the three per-channel median reads into the returned
Vec3; a failed (out-of-bounds) read on any channel leaves no defined result. -/
def combineMedians : Option ℚ → Option ℚ → Option ℚ → Option Vec3
  | some r, some g, some b => some ⟨r, g, b⟩
  | _, _, _ => none

/-- getRgbMedianMask of the source: bucket the masked pixels per channel and
read the median of each bucket. The result is none exactly when one of the
three median reads is the out-of-bounds access on an empty bucket. -/
def getRgbMedianMask (locs : List (ℤ × ℤ)) (isRaw : Bool)
    (rawVal : ℤ × ℤ → ℚ) (rgbVal : ℤ × ℤ → Vec3)
    (channelOf : ℤ × ℤ → Fin 3) : Option Vec3 :=
  let buckets := rgbBuckets locs isRaw rawVal rgbVal channelOf
  combineMedians (medianSelect buckets.1) (medianSelect buckets.2.1)
    (medianSelect buckets.2.2)

/-- computeColorPatchErrors of the source. The two images are scaled in place
by kScale = 255 before the loop (imBefore *= kScale; imAfter *= kScale act on
the buffers passed by reference); the first two components of the result are
those final buffers. Images are abstracted as total pixel functions from
coordinates to Vec3, and reading at(centroid) is the application of the
(scaled) image to the patch centroid. The sq parameter stands for the square
root inside the L2 norm (norm(diff, NORM_L2) = sq (normSq diff)), abstracted
because an exact real square root is not rational; no statement below depends
on its values. In the loop body the source computes
medianBefore = imBefore.at(centroid) but never reads it: the before error is
computed from the stored patch rgbMedian instead. -/
def computeColorPatchErrors (sq : ℚ → ℚ)
    (imBefore imAfter : ℚ × ℚ → Vec3) (colorPatches : List ColorPatch) :
    (ℚ × ℚ → Vec3) × (ℚ × ℚ → Vec3) × Vec4 × Vec4 :=
  let kScale : ℚ := 255
  let imBeforeScaled := fun p => v3scale kScale (imBefore p)
  let imAfterScaled := fun p => v3scale kScale (imAfter p)
  let numPatches : ℚ := colorPatches.length
  let errs :=
    colorPatches.enum.foldl
      (fun (acc : Vec4 × Vec4) ip =>
        let i := ip.1
        let patch := ip.2
        let medianAfter := imAfterScaled patch.centroid
        let macbethPatchVal := macbethVec i
        let diffBefore := v3sub patch.rgbMedian macbethPatchVal
        let diffAfter := v3sub medianAfter macbethPatchVal
        (⟨acc.1.e0 + sq (normSq diffBefore) / numPatches,
          acc.1.e1 + |diffBefore.c0| / numPatches,
          acc.1.e2 + |diffBefore.c1| / numPatches,
          acc.1.e3 + |diffBefore.c2| / numPatches⟩,
         ⟨acc.2.e0 + sq (normSq diffAfter) / numPatches,
          acc.2.e1 + |diffAfter.c0| / numPatches,
          acc.2.e2 + |diffAfter.c1| / numPatches,
          acc.2.e3 + |diffAfter.c2| / numPatches⟩))
      (⟨0, 0, 0, 0⟩, ⟨0, 0, 0, 0⟩)
  (imBeforeScaled, imAfterScaled, errs.1, errs.2)

/-- Squared Euclidean distance between two centroids. The source compares
Euclidean distances (cv norm of the difference); every comparison below is
taken on squares, which agrees with the original comparisons because
squaring is monotone on nonnegative reals. -/
def dist2 (p q : ℚ × ℚ) : ℚ := (p.1 - q.1) ^ 2 + (p.2 - q.2) ^ 2

/-- Running strict minimum of the source loops: the update
if (distance < current) current := distance, with none standing for the
FLT_MAX initialisation, which every real distance is below. -/
def minStep (cur : Option ℚ) (d : ℚ) : Option ℚ :=
  match cur with
  | none => some d
  | some m => if d < m then some d else some m

/-- minDistances[iPatch] of removeContourOutliers: the inner loop over
jPatch skips jPatch = iPatch, i.e. it visits exactly the list with index
iPatch erased, in order, keeping the strict running minimum of the squared
centroid distances. -/
def minDist2 (l : List ColorPatch) (i : ℕ) : Option ℚ :=
  ((l.eraseIdx i).map
    (fun q => dist2 (l.getD i dummyPatch).centroid q.centroid)).foldl minStep none

/-- Order used to sort the copied minDistances vector; none (the FLT_MAX
sentinel) is greatest. -/
def optLe (a b : Option ℚ) : Bool :=
  match a, b with
  | none, none => true
  | none, some _ => false
  | some _, none => true
  | some x, some y => decide (x ≤ y)

/-- Sort of the copied minDistances vector. The source calls std::sort; for
the total preorder optLe, in which ties are literally equal values, every
comparison sort returns the same list, embedded here as insertion sort. -/
def insertSorted (a : Option ℚ) : List (Option ℚ) → List (Option ℚ)
  | [] => [a]
  | b :: bs => if optLe a b then a :: b :: bs else b :: insertSorted a bs

/-- Full sorting pass over the minDistances vector (see insertSorted). -/
def sortMinDists : List (Option ℚ) → List (Option ℚ)
  | [] => []
  | a :: as => insertSorted a (sortMinDists as)

/-- The outer loop of removeContourOutliers that fills the minDistances
vector: entry i is the minimum distance of patch i. -/
def minDistsLoop (l : List ColorPatch) : ℕ → List ColorPatch → List (Option ℚ)
  | _, [] => []
  | i, _ :: rest => minDist2 l i :: minDistsLoop l (i + 1) rest

/-- minDistanceMedian of the source: the sorted copy of the minDistances
vector is read at index size/2. -/
def medianMinDist2 (l : List ColorPatch) : Option ℚ :=
  (sortMinDists (minDistsLoop l 0 l)).getD ((minDistsLoop l 0 l).length / 2) none

/-- The comparison minDistances[iPatch] < 2 * minDistanceMedian, carried out
on squared distances: d < 2m iff d^2 < 4 m^2 for nonnegative d and m. none
models the FLT_MAX sentinel; in float arithmetic 2 * FLT_MAX overflows to
infinity, so FLT_MAX < 2 * FLT_MAX holds while any finite threshold 2m lies
below FLT_MAX. -/
def ltTwiceMedian : Option ℚ → Option ℚ → Bool
  | some d, some m => decide (d < 4 * m)
  | some _, none => true
  | none, none => true
  | none, some _ => false

/-- Final loop of removeContourOutliers: patches are pushed in their
original order exactly when their minimum distance is strictly below the
threshold. -/
def removeOutliersLoop (l : List ColorPatch) (med : Option ℚ) :
    ℕ → List ColorPatch → List ColorPatch
  | _, [] => []
  | i, p :: rest =>
    if ltTwiceMedian (minDist2 l i) med then
      p :: removeOutliersLoop l med (i + 1) rest
    else
      removeOutliersLoop l med (i + 1) rest

/-- removeContourOutliers of the source. -/
def removeContourOutliers (colorPatchList : List ColorPatch) : List ColorPatch :=
  removeOutliersLoop colorPatchList (medianMinDist2 colorPatchList) 0 colorPatchList

/-- Non-strict variant of the threshold comparison, the reading the claim
asserts (minimum distance does not exceed twice the median). -/
def leTwiceMedian : Option ℚ → Option ℚ → Bool
  | some d, some m => decide (d ≤ 4 * m)
  | some _, none => true
  | none, none => true
  | none, some _ => false

/-- Specification reading of the minimum distance of a patch: the minimum of
the squared distances from its centroid to the centroid of every other patch
(other = patch with a different centroid, which coincides with the
index-skipping loop when centroids are pairwise distinct), none when no
other patch exists. -/
def specMinDist2 (p : ColorPatch) (l : List ColorPatch) : Option ℚ :=
  ((l.filter (fun q => decide (q.centroid ≠ p.centroid))).map
    (fun q => dist2 p.centroid q.centroid)).min?

/-- Specification reading of the median of the minimum distances across all
patches. -/
def specMedianMinDist2 (l : List ColorPatch) : Option ℚ :=
  (sortMinDists (l.map (fun p => specMinDist2 p l))).getD (l.length / 2) none

/-- Keep predicate actually implemented: minimum distance strictly below
twice the median (squared: four times). -/
def specKeep (l : List ColorPatch) (p : ColorPatch) : Bool :=
  ltTwiceMedian (specMinDist2 p l) (specMedianMinDist2 l)

/-- Keep predicate the claim asserts: minimum distance not exceeding twice
the median. -/
def claimKeep (l : List ColorPatch) (p : ColorPatch) : Bool :=
  leTwiceMedian (specMinDist2 p l) (specMedianMinDist2 l)

/-- findTopLeft of the source: the running nearest-to-(0,0) centroid under
strict improvement; the initial value (FLT_MAX, FLT_MAX) is strictly farther
from the corner than any real centroid and is modelled by none. Distances
are compared through squares. -/
def findTopLeft (points : List (ℚ × ℚ)) : Option (ℚ × ℚ) :=
  points.foldl
    (fun cur p =>
      match cur with
      | none => some p
      | some t => if dist2 (0, 0) p < dist2 (0, 0) t then some p else some t)
    none

/-- findTopRight of the source: nearest to (imageWidth, 0); the initial
value (-1, FLT_MAX) is modelled by none as for findTopLeft. -/
def findTopRight (points : List (ℚ × ℚ)) (imageWidth : ℚ) : Option (ℚ × ℚ) :=
  points.foldl
    (fun cur p =>
      match cur with
      | none => some p
      | some t =>
        if dist2 (imageWidth, 0) p < dist2 (imageWidth, 0) t then some p else some t)
    none

/-- Numerator of pointToLineDistance: the absolute value of
n1 - n2 + n3 - n4. The source divides by the distance between the two line
points, one and the same positive constant for every comparison of a
sorting pass, so comparing numerators agrees with comparing the distances
(two equal line points would divide by zero in the source; not exercised
here). -/
def lineDistNum (p pLine1 pLine2 : ℚ × ℚ) : ℚ :=
  |(pLine2.2 - pLine1.2) * p.1 - (pLine2.1 - pLine1.1) * p.2 +
    pLine2.1 * pLine1.2 - pLine2.2 * pLine1.1|

/-- Sorting of the remaining centroids by distance to the current row line.
The source calls std::sort with the strict comparator d1 < d2; insertion
sort with the complementary nonstrict order returns the same list up to the
placement of ties, which the source leaves unspecified. -/
def insertByDist (pLine1 pLine2 : ℚ × ℚ) (a : ℚ × ℚ) :
    List (ℚ × ℚ) → List (ℚ × ℚ)
  | [] => [a]
  | b :: bs =>
    if lineDistNum a pLine1 pLine2 ≤ lineDistNum b pLine1 pLine2 then
      a :: b :: bs
    else
      b :: insertByDist pLine1 pLine2 a bs

/-- Full pass of the distance sort (see insertByDist). -/
def sortByDist (pLine1 pLine2 : ℚ × ℚ) : List (ℚ × ℚ) → List (ℚ × ℚ)
  | [] => []
  | a :: as => insertByDist pLine1 pLine2 a (sortByDist pLine1 pLine2 as)

/-- Row-sort key: the source comparator converts the centroids to integer
points (cvRound on each coordinate) before comparing x; rounding to nearest
is modelled with floor of x + 1/2 (the round-half-to-even tie rule of
cvRound differs only on exact halves, which nothing here exercises). -/
def roundCoord (x : ℚ) : ℤ := ⌊x + 1 / 2⌋

/-- Sorting of one row of centroids by increasing (rounded) x. -/
def insertByX (a : ℚ × ℚ) : List (ℚ × ℚ) → List (ℚ × ℚ)
  | [] => [a]
  | b :: bs =>
    if roundCoord a.1 ≤ roundCoord b.1 then a :: b :: bs
    else b :: insertByX a bs

/-- Full pass of the row sort (see insertByX). -/
def sortByX : List (ℚ × ℚ) → List (ℚ × ℚ)
  | [] => []
  | a :: as => insertByX a (sortByX as)

/-- The while loop of sortPatches: each pass finds the centroids nearest the
top-left and top-right image corners among the remaining points, sorts the
remaining centroids by distance to the line through those two anchors,
takes the first numSquaresW of them as the current row, sorts that row by x
and removes it. The fuel argument, initially the number of centroids,
bounds the number of passes; it is never exhausted when numSquaresW >= 1,
since every pass then removes at least one centroid (with numSquaresW = 0
the source loops forever). -/
def sortCentroidsLoop (numSquaresW : ℕ) (imageWidth : ℚ) :
    ℕ → List (ℚ × ℚ) → List (ℚ × ℚ)
  | _, [] => []
  | 0, _ :: _ => []
  | fuel + 1, c :: cs =>
    let pLine1 := (findTopLeft (c :: cs)).getD (0, 0)
    let pLine2 := (findTopRight (c :: cs) imageWidth).getD (0, 0)
    let sorted := sortByDist pLine1 pLine2 (c :: cs)
    let row := sorted.take numSquaresW
    let rowSorted := sortByX row
    rowSorted ++ sortCentroidsLoop numSquaresW imageWidth fuel (sorted.drop row.length)

/-- sortPatches of the source: order the centroids row by row, then emit for
each ordered centroid the first patch carrying it. -/
def sortPatches (colorPatchList : List ColorPatch) (numSquaresW : ℕ)
    (imageWidth : ℚ) : List ColorPatch :=
  let centroids := colorPatchList.map (fun p => p.centroid)
  let centroidsSorted :=
    sortCentroidsLoop numSquaresW imageWidth centroids.length centroids
  centroidsSorted.filterMap
    (fun c => colorPatchList.find? (fun cp => decide (cp.centroid = c)))

/-- Results of the external contour primitives for one contour of a label:
vertex count after polygon simplification, minimal rotated bounding
rectangle size (minAreaRect), moment area m00, convexity, rectangle center,
and the filled axis-aligned bounding rectangle used as the patch mask. -/
structure ChartContour where
  nVertices : ℕ
  bbWidth : ℚ
  bbHeight : ℚ
  m00 : ℚ
  isConvex : Bool
  center : ℚ × ℚ
  rectMask : List (ℤ × ℤ)
deriving DecidableEq

/-- One nonzero label of connectedComponentsWithStats, with its stats row
and the contours findContours extracts from the label mask (the image
preprocessing - scaling, blur, adaptive threshold, morphology - and the
contour extraction are external primitives per the spec). -/
structure CCLabel where
  area : ℤ
  top : ℤ
  left : ℤ
  width : ℤ
  height : ℤ
  contours : List ChartContour
deriving DecidableEq

/-- The label filter of detectColorChart: a label is skipped when its pixel
count is below 1% of the image area, when its bounding box fails the
centering constraints (kFracErrorX = 0.10; the box must be horizontally
within tolerance of the center and must vertically straddle it), or when
the box covers more than 40% of the image; the first label passing all of
these whose mask yields at least numSquaresW * numSquaresH contours is
accepted. center is (cols / 2, rows / 2) with integer division. -/
def labelQualifies (rows cols numSquaresW numSquaresH : ℕ) (lab : CCLabel) :
    Bool :=
  if (lab.area : ℚ) < (1 / 100) * ((cols : ℚ) * (rows : ℚ)) then false
  else if (lab.left : ℚ) > (1 + 1 / 10) * (((cols : ℤ) / 2 : ℤ) : ℚ) ∨
      lab.top > ((rows : ℤ) / 2) ∨
      (lab.left : ℚ) + (lab.width : ℚ) < (1 - 1 / 10) * (((cols : ℤ) / 2 : ℤ) : ℚ) ∨
      lab.top + lab.height < ((rows : ℤ) / 2) then false
  else if (lab.width : ℚ) * (lab.height : ℚ) > (4 / 10) * ((cols : ℚ) * (rows : ℚ))
    then false
  else decide (numSquaresW * numSquaresH ≤ lab.contours.length)

/-- Specification reading of a qualifying chart label, as the conjunction of
the constraints the spec states. -/
def labelQualifiesSpec (rows cols numSquaresW numSquaresH : ℕ)
    (lab : CCLabel) : Prop :=
  (1 / 100) * ((cols : ℚ) * (rows : ℚ)) ≤ (lab.area : ℚ) ∧
  (lab.left : ℚ) ≤ (1 + 1 / 10) * (((cols : ℤ) / 2 : ℤ) : ℚ) ∧
  lab.top ≤ ((rows : ℤ) / 2) ∧
  (1 - 1 / 10) * (((cols : ℤ) / 2 : ℤ) : ℚ) ≤ (lab.left : ℚ) + (lab.width : ℚ) ∧
  ((rows : ℤ) / 2) ≤ lab.top + lab.height ∧
  (lab.width : ℚ) * (lab.height : ℚ) ≤ (4 / 10) * ((cols : ℚ) * (rows : ℚ)) ∧
  numSquaresW * numSquaresH ≤ lab.contours.length

/-- The per-contour patch filter of detectColorChart. The source truncates
the rotated-rectangle dimensions, the moment area and the aspect quotient
to int (floor, for the nonnegative values arising from the primitives);
kMaxAspectRatio = 1.2, kNumEdges = 4, the patch area must lie within
[0.01%, 0.45%] of the image area and the contour must be convex. A kept
contour becomes a ColorPatch with the rectangle center as centroid and the
filled bounding rectangle as mask (cv Vec3f zero-initialises the rgbMedian
field, later populated by the median passes). -/
def patchOfContour (imSize : ℚ) (cont : ChartContour) : Option ColorPatch :=
  let width : ℤ := ⌊cont.bbWidth⌋
  let height : ℤ := ⌊cont.bbHeight⌋
  let area : ℤ := ⌊cont.m00⌋
  let aspect : ℤ := ⌊((max width height : ℤ) : ℚ) / ((min width height : ℤ) : ℚ)⌋
  if (area : ℚ) < (1 / 10000) * imSize ∨ (area : ℚ) > (45 / 10000) * imSize ∨
      cont.nVertices ≠ 4 ∨ (aspect : ℚ) > 6 / 5 ∨ cont.isConvex = false then
    none
  else
    some ⟨cont.center, cont.rectMask, ⟨0, 0, 0⟩⟩

/-- detectColorChart of the source, with the preprocessing and per-label
primitives abstracted into the CCLabel inputs (labels 1 .. la-1, in label
order). The label loop accepts the first qualifying label and otherwise
throws (No chart found). The contours of the accepted label are filtered
into patches; an empty patch list is returned as such (the source returns
early), and otherwise outlier removal and sorting run. In no case does an
accepted label lead to an error, even when fewer than
numSquaresW * numSquaresH patches survive. The local for the patch list is
written out at each use here to keep the branches first-order. -/
def detectColorChart (rows cols numSquaresW numSquaresH : ℕ)
    (labels : List CCLabel) : Except String (List ColorPatch) :=
  match labels.find? (labelQualifies rows cols numSquaresW numSquaresH) with
  | none => .error "No chart found"
  | some lab =>
    if (lab.contours.filterMap
        (patchOfContour ((cols : ℚ) * (rows : ℚ)))).length = 0 then
      .ok (lab.contours.filterMap (patchOfContour ((cols : ℚ) * (rows : ℚ))))
    else
      .ok (sortPatches
        (removeContourOutliers
          (lab.contours.filterMap (patchOfContour ((cols : ℚ) * (rows : ℚ)))))
        numSquaresW (cols : ℚ))

/-- One candidate black-hole contour of findBlackLevel, with the results of
the external geometric primitives as fields: contArea is contourArea(cont)
truncated to int by the source, nVertices is cont.size() after approxPolyDP,
circleArea is pi times circleRadius squared from minEnclosingCircle
(abstracted as a given rational, since pi is not rational), and rgbMedian is
the value getRgbMedianMask yields on the filled contour mask over the
normalized raw image (the ISP image pipeline behind it is external). -/
structure BlobContour where
  contArea : ℤ
  nVertices : ℕ
  circleArea : ℚ
  rgbMedian : Vec3
deriving DecidableEq

/-- Contour filter of findBlackLevel: a contour is discarded when it is too
small (contArea < kNumPixelsMin = 50), has too few simplified vertices
(cont.size() < kMinNumVertices = 10) or is insufficiently circular
(contArea / circleArea < kMaxRatioAreas = 1/2). Rational division models the
float division; for a degenerate circleArea = 0 the float quotient would be
infinite or NaN while the rational quotient is 0, a case no statement below
exercises. -/
def blobKeep (c : BlobContour) : Bool :=
  if c.contArea < 50 ∨ c.nVertices < 10 ∨ (c.contArea : ℚ) / c.circleArea < 1/2
  then false else true

/-- The surviving contours of findBlackLevel, in their original order. -/
def filterBlobContours (contours : List BlobContour) : List BlobContour :=
  contours.filter blobKeep

/-- Comparison blackLevelNorm < minNorm of the findBlackLevel loop: none
models the DBL_MAX initialisation of minNorm, which every real norm is
below; actual norms are compared through their squares (monotonicity). -/
def betterNorm (n : ℚ) : Option ℚ → Bool
  | none => true
  | some m => decide (n < m)

/-- The minNorm / minNormIdx tracking loop of findBlackLevel over the
candidate black levels: i is the index of the head of the remaining list,
cur the running minimum and best the running argmin (initially 0). The
update is strict, so the first minimal candidate wins. -/
def minNormIdxLoop : List Vec3 → ℕ → Option ℚ → ℕ → ℕ
  | [], _, _, best => best
  | v :: rest, i, cur, best =>
    if betterNorm (normSq v) cur then
      minNormIdxLoop rest (i + 1) (some (normSq v)) i
    else
      minNormIdxLoop rest (i + 1) cur best

/-- Final selection of findBlackLevel: the unconditional read
blackLevels[minNormIdx], which on an empty candidate vector is the
out-of-bounds read of index 0, embedded as none. -/
def selectMinNorm (blackLevels : List Vec3) : Option Vec3 :=
  blackLevels.get? (minNormIdxLoop blackLevels 0 none 0)

/-- findBlackLevel of the source from the contour-filter stage on:
blackLevels[i] is the median of surviving contour i, the loop tracks the
minimal-norm index, and the result is the selected candidate. -/
def findBlackLevel (contours : List BlobContour) : Option Vec3 :=
  selectMinNorm ((filterBlobContours contours).map (fun c => c.rgbMedian))

end ColorCalib

namespace ColorCalib

/-- Claim C1: the claim reads getMacBethGrays as returning exactly 5 values
taken from the last 5 rows of the table. The loop bound is inclusive on both
ends, so the function in fact returns 6 values; in particular its length is
not 5. -/
theorem getMacBethGrays_length_not_five : ¬ (getMacBethGrays.length = 5) := by
  decide

/-- Claim C1 (amended): getMacBethGrays returns exactly 6 values, namely the
first components of the last 6 rows of rgbLinearMacbeth taken in reversed
order (last row first, darkest to brightest). -/
theorem getMacBethGrays_last_six_reversed :
    getMacBethGrays.length = 6 ∧
    getMacBethGrays =
      (((rgbLinearMacbeth.drop (rgbLinearMacbeth.length - 6)).map
        (fun row => row.getD 0 0)).reverse) := by
  constructor
  · decide
  · decide

/-- Claim C3: for every channel the two-point fit is computed exactly by the
stated formulas, and on the sample inputs xDark = 1/5, yDark = 1/4,
xBright = 4/5, yBright = 3/4 it yields slope 5/6, interceptY 1/12 and
x-domain bounds -1/10 and 11/10. -/
theorem computeRGBResponseChannel_two_point_fit :
    (∀ xDark xBright yDark yBright : ℚ,
      computeRGBResponseChannel xDark xBright yDark yBright =
        ((yBright - yDark) / (xBright - xDark),
         -((yBright - yDark) / (xBright - xDark)) * xDark + yDark,
         -(-((yBright - yDark) / (xBright - xDark)) * xDark + yDark) /
           ((yBright - yDark) / (xBright - xDark)),
         (1 - (-((yBright - yDark) / (xBright - xDark)) * xDark + yDark)) /
           ((yBright - yDark) / (xBright - xDark)))) ∧
    computeRGBResponseChannel (1/5) (4/5) (1/4) (3/4) =
      (5/6, 1/12, -1/10, 11/10) := by
  refine ⟨fun xD xB yD yB => rfl, by norm_num [computeRGBResponseChannel]⟩

/-- Claim C5: a patch whose mask yields zero pixels in some channel bucket
gives the median computation no defined value: the source reads position 0 of
an empty vector (out of bounds), embedded as the result none. No exception
of any kind is raised by the source on this path. -/
theorem getRgbMedianMask_empty_bucket_none :
    ∀ (locs : List (ℤ × ℤ)) (isRaw : Bool) (rawVal : ℤ × ℤ → ℚ)
      (rgbVal : ℤ × ℤ → Vec3) (channelOf : ℤ × ℤ → Fin 3),
      ((rgbBuckets locs isRaw rawVal rgbVal channelOf).1 = [] ∨
       (rgbBuckets locs isRaw rawVal rgbVal channelOf).2.1 = [] ∨
       (rgbBuckets locs isRaw rawVal rgbVal channelOf).2.2 = []) →
      getRgbMedianMask locs isRaw rawVal rgbVal channelOf = none := by
  intro locs isRaw rawVal rgbVal channelOf h
  have key : ∀ (a b c : Option ℚ), (a = none ∨ b = none ∨ c = none) →
      combineMedians a b c = none := by
    intro a b c hx
    cases a <;> cases b <;> cases c <;> simp_all [combineMedians]
  show combineMedians
    (medianSelect (rgbBuckets locs isRaw rawVal rgbVal channelOf).1)
    (medianSelect (rgbBuckets locs isRaw rawVal rgbVal channelOf).2.1)
    (medianSelect (rgbBuckets locs isRaw rawVal rgbVal channelOf).2.2) = none
  rcases h with h | h | h
  · exact key _ _ _ (Or.inl (by rw [h]; simp [medianSelect]))
  · exact key _ _ _ (Or.inr (Or.inl (by rw [h]; simp [medianSelect])))
  · exact key _ _ _ (Or.inr (Or.inr (by rw [h]; simp [medianSelect])))

/-- Witness for claim C5: a concrete mask with no nonzero pixel has an empty
red bucket and the median computation returns none on it. -/
theorem getRgbMedianMask_empty_bucket_none_witness :
    ((rgbBuckets [] true (fun _ => (0 : ℚ)) (fun _ => (⟨0, 0, 0⟩ : Vec3))
        (fun _ => (0 : Fin 3))).1 = [] ∨
     (rgbBuckets [] true (fun _ => (0 : ℚ)) (fun _ => (⟨0, 0, 0⟩ : Vec3))
        (fun _ => (0 : Fin 3))).2.1 = [] ∨
     (rgbBuckets [] true (fun _ => (0 : ℚ)) (fun _ => (⟨0, 0, 0⟩ : Vec3))
        (fun _ => (0 : Fin 3))).2.2 = []) ∧
    getRgbMedianMask [] true (fun _ => (0 : ℚ)) (fun _ => (⟨0, 0, 0⟩ : Vec3))
      (fun _ => (0 : Fin 3)) = none :=
  ⟨Or.inl rfl,
   getRgbMedianMask_empty_bucket_none [] true (fun _ => (0 : ℚ))
     (fun _ => (⟨0, 0, 0⟩ : Vec3)) (fun _ => (0 : Fin 3)) (Or.inl rfl)⟩

/-- Claim C7 (counterexample): with slope 2 and interceptY 1/2 on every
channel and the configured reflectance threshold xMin = 1/2, the computed
clamp-min component is 3/2, which is not inside [0,1]: the source clips the
minima from below at 0 only, so the claim that each bound is clipped to
[0,1] is false at this input. -/
theorem clampAndStretchBounds_not_clipped_to_unit :
    (clampAndStretchBounds
      ⟨⟨2, 2, 2⟩, ⟨1/2, 1/2, 1/2⟩, ⟨0, 0, 0⟩, ⟨0, 0, 0⟩⟩
      ⟨1/2, 0, 0⟩ ⟨1, 0, 0⟩).1.c0 = 3/2 ∧
    ¬ ((3/2 : ℚ) ≤ 1) := by
  constructor
  · norm_num [clampAndStretchBounds]
  · norm_num

/-- Claim C7 (amended): the output clamp bounds are obtained per channel by
mapping the single thresholds xMin and xMax (component 0 of the input clamp
vectors, identical for all channels) through the fitted line; the minima are
then clipped from below at 0 and the maxima from above at 1 (one-sided
clips, not a two-sided clip to [0,1]). -/
theorem clampAndStretchBounds_formula :
    ∀ (cr : ColorResponse) (rgbClampMinIn rgbClampMaxIn : Vec3),
      clampAndStretchBounds cr rgbClampMinIn rgbClampMaxIn =
        (⟨max 0 (cr.rgbSlope.c0 * rgbClampMinIn.c0 + cr.rgbInterceptY.c0),
          max 0 (cr.rgbSlope.c1 * rgbClampMinIn.c0 + cr.rgbInterceptY.c1),
          max 0 (cr.rgbSlope.c2 * rgbClampMinIn.c0 + cr.rgbInterceptY.c2)⟩,
         ⟨min 1 (cr.rgbSlope.c0 * rgbClampMaxIn.c0 + cr.rgbInterceptY.c0),
          min 1 (cr.rgbSlope.c1 * rgbClampMaxIn.c0 + cr.rgbInterceptY.c1),
          min 1 (cr.rgbSlope.c2 * rgbClampMaxIn.c0 + cr.rgbInterceptY.c2)⟩) :=
  fun _ _ _ => rfl

/-- Claim C4: at identical before and after images (every pixel 1/2 on every
channel) and one patch with stored median 1/2 per channel, the two error
vectors differ: the before error is computed from the stored patch rgbMedian
(left in [0,1] scale, giving absolute red error 229/2 against reference red
115) while the after error is computed from the scaled image value at the
centroid (255 * 1/2 = 127.5, giving absolute red error 25/2). The square
root inside the L2 norm is instantiated with the zero function; components
1..3 do not involve it. -/
theorem computeColorPatchErrors_identical_images_differ :
    (computeColorPatchErrors (fun _ => 0) (fun _ => ⟨1/2, 1/2, 1/2⟩)
      (fun _ => ⟨1/2, 1/2, 1/2⟩)
      [⟨(0, 0), [], ⟨1/2, 1/2, 1/2⟩⟩]).2.2.1 ≠
    (computeColorPatchErrors (fun _ => 0) (fun _ => ⟨1/2, 1/2, 1/2⟩)
      (fun _ => ⟨1/2, 1/2, 1/2⟩)
      [⟨(0, 0), [], ⟨1/2, 1/2, 1/2⟩⟩]).2.2.2 := by
  intro h
  have h1 := congrArg Vec4.e1 h
  norm_num [computeColorPatchErrors, macbethVec, rgbLinearMacbeth, v3sub,
    v3scale, normSq, List.enum, abs_eq_abs] at h1

/-- Claim C9 (counterexample): computeColorPatchErrors is not pure with
respect to its image inputs: after the call the before image, whose every
pixel was (1,1,1), holds (255,255,255) at pixel (0,0) - the source multiplies
both image buffers by 255 in place before the loop. -/
theorem computeColorPatchErrors_mutates_images :
    (computeColorPatchErrors (fun _ => 0) (fun _ => ⟨1, 1, 1⟩)
      (fun _ => ⟨1, 1, 1⟩) []).1 (0, 0) ≠ (⟨1, 1, 1⟩ : Vec3) := by
  norm_num [computeColorPatchErrors, v3scale, Vec3.mk.injEq]

/-- Claim C9 (amended): computeColorPatchErrors multiplies every pixel of
both beforeImage and afterImage by 255 in place (the final buffers are the
pointwise 255-scalings of the inputs); the patch list itself is only read. -/
theorem computeColorPatchErrors_scales_images_in_place :
    ∀ (sq : ℚ → ℚ) (imBefore imAfter : ℚ × ℚ → Vec3)
      (colorPatches : List ColorPatch) (p : ℚ × ℚ),
      (computeColorPatchErrors sq imBefore imAfter colorPatches).1 p =
        v3scale 255 (imBefore p) ∧
      (computeColorPatchErrors sq imBefore imAfter colorPatches).2.1 p =
        v3scale 255 (imAfter p) :=
  fun _ _ _ _ _ => ⟨rfl, rfl⟩

/-- Helper: invariant of the minNorm / minNormIdx tracking loop. Starting
from a real running minimum m with argmin best, the loop either keeps best
(and m is a lower bound of the remaining candidates) or lands on a remaining
candidate that is strictly below m and minimal among the remaining ones. -/
theorem minNormIdxLoop_spec :
    ∀ (l : List Vec3) (i : ℕ) (m : ℚ) (best : ℕ),
      (minNormIdxLoop l i (some m) best = best ∧ ∀ v ∈ l, m ≤ normSq v) ∨
      (∃ k, ∃ hk : k < l.length, minNormIdxLoop l i (some m) best = i + k ∧
        normSq (l.get ⟨k, hk⟩) < m ∧
        ∀ v ∈ l, normSq (l.get ⟨k, hk⟩) ≤ normSq v) := by
  intro l
  induction l with
  | nil => intro i m best; exact Or.inl ⟨rfl, by simp⟩
  | cons v rest ih =>
    intro i m best
    by_cases hlt : normSq v < m
    · have hstep : minNormIdxLoop (v :: rest) i (some m) best =
          minNormIdxLoop rest (i + 1) (some (normSq v)) i := by
        simp [minNormIdxLoop, betterNorm, hlt]
      rcases ih (i + 1) (normSq v) i with ⟨heq, hall⟩ | ⟨k, hk, heq, hklt, hall⟩
      · refine Or.inr ⟨0, Nat.succ_pos rest.length, ?_, hlt, ?_⟩
        · rw [hstep, heq]; omega
        · intro w hw
          rcases List.mem_cons.mp hw with h | h
          · subst h; exact le_refl _
          · exact hall w h
      · refine Or.inr ⟨k + 1, Nat.succ_lt_succ hk, ?_, lt_trans hklt hlt, ?_⟩
        · rw [hstep, heq]; omega
        · intro w hw
          rcases List.mem_cons.mp hw with h | h
          · subst h; exact le_of_lt hklt
          · exact hall w h
    · have hstep : minNormIdxLoop (v :: rest) i (some m) best =
          minNormIdxLoop rest (i + 1) (some m) best := by
        simp [minNormIdxLoop, betterNorm, hlt]
      rcases ih (i + 1) m best with ⟨heq, hall⟩ | ⟨k, hk, heq, hklt, hall⟩
      · refine Or.inl ⟨hstep.trans heq, ?_⟩
        intro w hw
        rcases List.mem_cons.mp hw with h | h
        · subst h; exact le_of_not_lt hlt
        · exact hall w h
      · refine Or.inr ⟨k + 1, Nat.succ_lt_succ hk, ?_, hklt, ?_⟩
        · rw [hstep, heq]; omega
        · intro w hw
          rcases List.mem_cons.mp hw with h | h
          · subst h; exact le_trans (le_of_lt hklt) (le_of_not_lt hlt)
          · exact hall w h

/-- Helper: on a nonempty candidate list the selection returns a minimal
element of the list. -/
theorem selectMinNorm_cons_spec (v : Vec3) (vs : List Vec3) :
    ∃ w, selectMinNorm (v :: vs) = some w ∧ w ∈ v :: vs ∧
      ∀ u ∈ v :: vs, normSq w ≤ normSq u := by
  have hstep : minNormIdxLoop (v :: vs) 0 none 0 =
      minNormIdxLoop vs 1 (some (normSq v)) 0 := by
    simp [minNormIdxLoop, betterNorm]
  rcases minNormIdxLoop_spec vs 1 (normSq v) 0 with ⟨heq, hall⟩ | ⟨k, hk, heq, hklt, hall⟩
  · refine ⟨v, ?_, List.mem_cons_self v vs, ?_⟩
    · unfold selectMinNorm
      rw [hstep, heq]
      rfl
    · intro u hu
      rcases List.mem_cons.mp hu with h | h
      · subst h; exact le_refl _
      · exact hall u h
  · refine ⟨vs.get ⟨k, hk⟩, ?_, List.mem_cons_of_mem v (vs.get_mem k hk), ?_⟩
    · unfold selectMinNorm
      rw [hstep, heq]
      have h1 : 1 + k = k + 1 := by omega
      rw [h1]
      show vs.get? k = some (vs.get ⟨k, hk⟩)
      exact List.get?_eq_get hk
    · intro u hu
      rcases List.mem_cons.mp hu with h | h
      · subst h; exact le_of_lt hklt
      · exact hall u h

/-- Helper: the selection fails exactly on the empty candidate list. -/
theorem selectMinNorm_none_iff (l : List Vec3) :
    selectMinNorm l = none ↔ l = [] := by
  cases l with
  | nil => simp [selectMinNorm, minNormIdxLoop]
  | cons v vs =>
    obtain ⟨w, hw, _, _⟩ := selectMinNorm_cons_spec v vs
    rw [hw]
    simp

/-- Claim C10: findBlackLevel selects blackLevels[minNormIdx] with no error
path: the selection has no defined value exactly when no contour survives
the filter (in which case it reads index 0 of the empty candidate vector:
the loop returns 0 and the read is out of bounds), and with at least one
survivor every access of the selection step is in bounds. -/
theorem findBlackLevel_none_iff_no_survivor :
    ∀ contours : List BlobContour,
      (findBlackLevel contours = none ↔ filterBlobContours contours = []) ∧
      (filterBlobContours contours = [] →
        minNormIdxLoop ((filterBlobContours contours).map (fun c => c.rgbMedian))
          0 none 0 = 0) := by
  intro contours
  constructor
  · unfold findBlackLevel
    rw [selectMinNorm_none_iff]
    constructor
    · exact fun h => List.map_eq_nil_iff.mp h
    · intro h; rw [h]; rfl
  · intro h; rw [h]; rfl

/-- Claim C8: whenever at least one contour survives the filter,
findBlackLevel returns the rgb median of a surviving contour whose Euclidean
norm (compared through squares) is minimal among all surviving medians. -/
theorem findBlackLevel_min_norm :
    ∀ contours : List BlobContour,
      filterBlobContours contours ≠ [] →
      ∃ v, findBlackLevel contours = some v ∧
        v ∈ (filterBlobContours contours).map (fun c => c.rgbMedian) ∧
        ∀ w ∈ (filterBlobContours contours).map (fun c => c.rgbMedian),
          normSq v ≤ normSq w := by
  intro contours hne
  cases hcl : (filterBlobContours contours).map (fun c => c.rgbMedian) with
  | nil => exact absurd (List.map_eq_nil_iff.mp hcl) hne
  | cons v vs =>
    obtain ⟨w, hw, hmem, hmin⟩ := selectMinNorm_cons_spec v vs
    refine ⟨w, ?_, ?_, ?_⟩
    · unfold findBlackLevel
      rw [hcl]
      exact hw
    · exact hmem
    · exact hmin

/-- Witness for claim C8: one concrete surviving contour (area 60, 12
vertices, circle area 100, median (1/100, 1/100, 1/100)) makes the filter
output nonempty, and the theorem produces the minimal-norm median on it. -/
theorem findBlackLevel_min_norm_witness :
    filterBlobContours [⟨60, 12, 100, ⟨1/100, 1/100, 1/100⟩⟩] ≠ [] ∧
    ∃ v, findBlackLevel [⟨60, 12, 100, ⟨1/100, 1/100, 1/100⟩⟩] = some v ∧
      v ∈ (filterBlobContours [⟨60, 12, 100, ⟨1/100, 1/100, 1/100⟩⟩]).map
            (fun c => c.rgbMedian) ∧
      ∀ w ∈ (filterBlobContours [⟨60, 12, 100, ⟨1/100, 1/100, 1/100⟩⟩]).map
            (fun c => c.rgbMedian),
        normSq v ≤ normSq w :=
  have hne : filterBlobContours [⟨60, 12, 100, ⟨1/100, 1/100, 1/100⟩⟩] ≠ [] := by
    norm_num [filterBlobContours, List.filter, blobKeep]
  ⟨hne, findBlackLevel_min_norm [⟨60, 12, 100, ⟨1/100, 1/100, 1/100⟩⟩] hne⟩

/-- Helper: one update step of the running strict minimum computes min. -/
theorem minStep_some (m d : ℚ) : minStep (some m) d = some (min m d) := by
  show (if d < m then some d else some m) = some (min m d)
  rcases le_or_lt m d with h | h
  · rw [if_neg (not_lt.mpr h), min_eq_left h]
  · rw [if_pos h, min_eq_right (le_of_lt h)]

/-- Helper: folding the running strict minimum from a seed value computes
the fold of min. -/
theorem foldl_minStep_some (ds : List ℚ) :
    ∀ m, ds.foldl minStep (some m) = some (ds.foldl min m) := by
  induction ds with
  | nil => intro m; rfl
  | cons d ds ih =>
    intro m
    rw [List.foldl_cons, List.foldl_cons, minStep_some]
    exact ih (min m d)

/-- Helper: folding the running strict minimum from the sentinel computes
the minimum of the list. -/
theorem foldl_minStep_none (ds : List ℚ) : ds.foldl minStep none = ds.min? := by
  cases ds with
  | nil => rfl
  | cons d ds =>
    rw [List.foldl_cons]
    show ds.foldl minStep (some d) = (d :: ds).min?
    rw [foldl_minStep_some]
    rfl

/-- Helper: with pairwise distinct centroids, erasing index i is filtering
out the one patch that has the centroid of entry i. -/
theorem eraseIdx_eq_filter_of_pairwise :
    ∀ (l : List ColorPatch),
      l.Pairwise (fun a b => a.centroid ≠ b.centroid) →
      ∀ (i : ℕ) (hi : i < l.length),
        l.eraseIdx i =
          l.filter (fun q => decide (q.centroid ≠ (l.get ⟨i, hi⟩).centroid)) := by
  intro l
  induction l with
  | nil => intro _ i hi; simp at hi
  | cons a rest ih =>
    intro hp i hi
    obtain ⟨ha, hrest⟩ := List.pairwise_cons.mp hp
    cases i with
    | zero =>
      show rest = (a :: rest).filter (fun q => decide (q.centroid ≠ a.centroid))
      rw [List.filter_cons]
      rw [if_neg (by simp)]
      exact (List.filter_eq_self.mpr (fun q hq => by
        simpa using (ha q hq).symm)).symm
    | succ n =>
      have hn : n < rest.length := by simpa using hi
      show a :: rest.eraseIdx n =
        (a :: rest).filter
          (fun q => decide (q.centroid ≠ (rest.get ⟨n, hn⟩).centroid))
      rw [List.filter_cons]
      rw [if_pos (by simpa using ha _ (rest.get_mem n hn))]
      rw [ih hrest n hn]

/-- Helper: with pairwise distinct centroids the index-skipping minimum
distance of entry i is the specification minimum distance of the patch at i. -/
theorem minDist2_eq_spec (l : List ColorPatch)
    (hp : l.Pairwise (fun a b => a.centroid ≠ b.centroid))
    (i : ℕ) (hi : i < l.length) :
    minDist2 l i = specMinDist2 (l.get ⟨i, hi⟩) l := by
  unfold minDist2 specMinDist2
  rw [foldl_minStep_none]
  have hg : l.getD i dummyPatch = l.get ⟨i, hi⟩ := List.getD_eq_get l dummyPatch hi
  rw [eraseIdx_eq_filter_of_pairwise l hp i hi]
  simp only [hg]

/-- Helper: the minDistances vector agrees entrywise with the specification
minimum distances. -/
theorem minDistsLoop_eq_spec (l : List ColorPatch)
    (hp : l.Pairwise (fun a b => a.centroid ≠ b.centroid)) :
    ∀ (suffix : List ColorPatch) (i : ℕ),
      (∀ k, suffix.get? k = l.get? (i + k)) →
      minDistsLoop l i suffix = suffix.map (fun p => specMinDist2 p l) := by
  intro suffix
  induction suffix with
  | nil => intro i h; rfl
  | cons p rest ih =>
    intro i h
    have h0 : l.get? i = some p := by simpa using (h 0).symm
    obtain ⟨hi, hpi⟩ := List.get?_eq_some.mp h0
    have hshift : ∀ k, rest.get? k = l.get? (i + 1 + k) := by
      intro k
      have hk := h (k + 1)
      rw [show i + (k + 1) = i + 1 + k by omega] at hk
      simpa using hk
    show minDist2 l i :: minDistsLoop l (i + 1) rest = _
    rw [List.map_cons, minDist2_eq_spec l hp i hi, hpi, ih (i + 1) hshift]

/-- Helper: the implemented median of minimum distances is the specification
median. -/
theorem medianMinDist2_eq_spec (l : List ColorPatch)
    (hp : l.Pairwise (fun a b => a.centroid ≠ b.centroid)) :
    medianMinDist2 l = specMedianMinDist2 l := by
  unfold medianMinDist2 specMedianMinDist2
  rw [minDistsLoop_eq_spec l hp l 0 (fun k => by simp)]
  rw [List.length_map]

/-- Helper: the push loop of removeContourOutliers is the filter by the
strict threshold predicate. -/
theorem removeOutliersLoop_eq_filter (l : List ColorPatch)
    (hp : l.Pairwise (fun a b => a.centroid ≠ b.centroid)) (med : Option ℚ) :
    ∀ (suffix : List ColorPatch) (i : ℕ),
      (∀ k, suffix.get? k = l.get? (i + k)) →
      removeOutliersLoop l med i suffix =
        suffix.filter (fun p => ltTwiceMedian (specMinDist2 p l) med) := by
  intro suffix
  induction suffix with
  | nil => intro i h; rfl
  | cons p rest ih =>
    intro i h
    have h0 : l.get? i = some p := by simpa using (h 0).symm
    obtain ⟨hi, hpi⟩ := List.get?_eq_some.mp h0
    have hshift : ∀ k, rest.get? k = l.get? (i + 1 + k) := by
      intro k
      have hk := h (k + 1)
      rw [show i + (k + 1) = i + 1 + k by omega] at hk
      simpa using hk
    show (if ltTwiceMedian (minDist2 l i) med then
        p :: removeOutliersLoop l med (i + 1) rest
      else removeOutliersLoop l med (i + 1) rest) = _
    rw [List.filter_cons, minDist2_eq_spec l hp i hi, hpi, ih (i + 1) hshift]

/-- Claim C6 (amended): on every patch list with pairwise distinct centroids
(the invariant the spec itself states for patch identification),
removeContourOutliers keeps, in their original relative order, exactly those
patches whose minimum squared centroid distance to any other patch is
strictly below four times the squared median (that is, whose minimum
Euclidean distance is strictly below 2 times the median distance); a patch
whose minimum distance equals the threshold is discarded. -/
theorem removeContourOutliers_keeps_strictly_below :
    ∀ l : List ColorPatch,
      l.Pairwise (fun a b => a.centroid ≠ b.centroid) →
      removeContourOutliers l = l.filter (specKeep l) := by
  intro l hp
  unfold removeContourOutliers
  rw [medianMinDist2_eq_spec l hp]
  rw [removeOutliersLoop_eq_filter l hp (specMedianMinDist2 l) l 0
    (fun k => by simp)]
  rfl

/-- Witness for claim C6 (amended): three collinear patches with pairwise
distinct centroids instantiate the theorem. -/
theorem removeContourOutliers_keeps_strictly_below_witness :
    ([⟨(0, 0), [], ⟨0, 0, 0⟩⟩, ⟨(1, 0), [], ⟨0, 0, 0⟩⟩,
      ⟨(3, 0), [], ⟨0, 0, 0⟩⟩] : List ColorPatch).Pairwise
      (fun a b => a.centroid ≠ b.centroid) ∧
    removeContourOutliers
      [⟨(0, 0), [], ⟨0, 0, 0⟩⟩, ⟨(1, 0), [], ⟨0, 0, 0⟩⟩, ⟨(3, 0), [], ⟨0, 0, 0⟩⟩] =
      ([⟨(0, 0), [], ⟨0, 0, 0⟩⟩, ⟨(1, 0), [], ⟨0, 0, 0⟩⟩,
        ⟨(3, 0), [], ⟨0, 0, 0⟩⟩] : List ColorPatch).filter
        (specKeep [⟨(0, 0), [], ⟨0, 0, 0⟩⟩, ⟨(1, 0), [], ⟨0, 0, 0⟩⟩,
          ⟨(3, 0), [], ⟨0, 0, 0⟩⟩]) :=
  ⟨by decide, removeContourOutliers_keeps_strictly_below _ (by decide)⟩

/-- Claim C6 (counterexample): for the patches at (0,0), (1,0), (3,0) the
minimum distances are 1, 1, 2 and the median is 1, so the third patch sits
exactly at the threshold 2 times the median: the claim (keep when the
minimum distance does not exceed the threshold) predicts all three are kept,
but the source keeps only the first two, discarding the boundary patch. -/
theorem removeContourOutliers_boundary_patch_discarded :
    removeContourOutliers
      [⟨(0, 0), [], ⟨0, 0, 0⟩⟩, ⟨(1, 0), [], ⟨0, 0, 0⟩⟩, ⟨(3, 0), [], ⟨0, 0, 0⟩⟩] =
      [⟨(0, 0), [], ⟨0, 0, 0⟩⟩, ⟨(1, 0), [], ⟨0, 0, 0⟩⟩] ∧
    ([⟨(0, 0), [], ⟨0, 0, 0⟩⟩, ⟨(1, 0), [], ⟨0, 0, 0⟩⟩,
      ⟨(3, 0), [], ⟨0, 0, 0⟩⟩] : List ColorPatch).filter
      (claimKeep [⟨(0, 0), [], ⟨0, 0, 0⟩⟩, ⟨(1, 0), [], ⟨0, 0, 0⟩⟩,
        ⟨(3, 0), [], ⟨0, 0, 0⟩⟩]) =
      [⟨(0, 0), [], ⟨0, 0, 0⟩⟩, ⟨(1, 0), [], ⟨0, 0, 0⟩⟩, ⟨(3, 0), [], ⟨0, 0, 0⟩⟩] ∧
    ([⟨(0, 0), [], ⟨0, 0, 0⟩⟩, ⟨(1, 0), [], ⟨0, 0, 0⟩⟩] : List ColorPatch) ≠
      [⟨(0, 0), [], ⟨0, 0, 0⟩⟩, ⟨(1, 0), [], ⟨0, 0, 0⟩⟩, ⟨(3, 0), [], ⟨0, 0, 0⟩⟩] := by
  refine ⟨?_, ?_, by decide⟩
  · norm_num [removeContourOutliers, removeOutliersLoop, medianMinDist2,
      minDistsLoop, minDist2, dist2, minStep, sortMinDists, insertSorted, optLe,
      ltTwiceMedian, dummyPatch, List.eraseIdx, List.foldl, List.getD]
  · norm_num [claimKeep, leTwiceMedian, specMinDist2, specMedianMinDist2,
      sortMinDists, insertSorted, optLe, dist2, List.filter, List.min?, dummyPatch,
      Prod.ext_iff, Prod.fst_zero, Prod.snd_zero, ne_eq, decide_not]

/-- Helper: the sequential skip conditions of the label loop are equivalent
to the specification conjunction. -/
theorem labelQualifies_iff (rows cols w h : ℕ) (lab : CCLabel) :
    labelQualifies rows cols w h lab = true ↔
      labelQualifiesSpec rows cols w h lab := by
  unfold labelQualifies labelQualifiesSpec
  split_ifs with h1 h2 h3
  · simp only [false_iff]
    intro hs
    exact absurd hs.1 (not_le.mpr h1)
  · simp only [false_iff]
    intro hs
    rcases h2 with hc | hc | hc | hc
    · exact absurd hs.2.1 (not_le.mpr hc)
    · exact absurd hs.2.2.1 (not_le.mpr hc)
    · exact absurd hs.2.2.2.1 (not_le.mpr hc)
    · exact absurd hs.2.2.2.2.1 (not_le.mpr hc)
  · simp only [false_iff]
    intro hs
    exact absurd hs.2.2.2.2.2.1 (not_le.mpr h3)
  · simp only [decide_eq_true_eq]
    constructor
    · intro hlen
      push_neg at h1 h2 h3
      exact ⟨h1, h2.1, h2.2.1, h2.2.2.1, h2.2.2.2, h3, hlen⟩
    · intro hs
      exact hs.2.2.2.2.2.2

/-- Claim C2 (amended): detectColorChart surfaces the ChartNotFoundError
(No chart found) exactly when no connected-component label qualifies as the
chart region; when a label qualifies, the function returns a patch list
without error even when, after patch filtering and outlier rejection, fewer
than numSquaresW * numSquaresH patches survive. -/
theorem detectColorChart_error_iff_no_label :
    ∀ (rows cols w h : ℕ) (labels : List CCLabel),
      (∃ e, detectColorChart rows cols w h labels = .error e) ↔
        ∀ lab ∈ labels, ¬ labelQualifiesSpec rows cols w h lab := by
  intro rows cols w h labels
  cases hf : labels.find? (labelQualifies rows cols w h) with
  | none =>
    have hred : detectColorChart rows cols w h labels = .error "No chart found" := by
      unfold detectColorChart
      rw [hf]
    constructor
    · intro _ lab hmem
      have h0 := List.find?_eq_none.mp hf lab hmem
      rw [← labelQualifies_iff rows cols w h lab]
      simpa using h0
    · intro _
      exact ⟨"No chart found", hred⟩
  | some lab =>
    have hred : detectColorChart rows cols w h labels =
        (if (lab.contours.filterMap
            (patchOfContour ((cols : ℚ) * (rows : ℚ)))).length = 0 then
          Except.ok (lab.contours.filterMap (patchOfContour ((cols : ℚ) * (rows : ℚ))))
        else
          Except.ok (sortPatches
            (removeContourOutliers
              (lab.contours.filterMap (patchOfContour ((cols : ℚ) * (rows : ℚ)))))
            w (cols : ℚ))) := by
      unfold detectColorChart
      rw [hf]
    constructor
    · rintro ⟨e, he⟩
      rw [hred] at he
      split at he <;> exact Except.noConfusion he
    · intro hall
      exact False.elim
        (hall lab (List.mem_of_find?_eq_some hf)
          ((labelQualifies_iff rows cols w h lab).mp (List.find?_some hf)))

/-- Claim C2 (counterexample): on a 100 x 100 image with numSquaresW =
numSquaresH = 1, a label qualifies (area 200, box (50,20)-(60,80), one
contour) but its only contour has 3 vertices and is discarded by the patch
filter, so zero patches survive, fewer than 1 * 1: the source returns the
empty list without error, while the claim says detection fails with
ChartNotFoundError in this case. -/
theorem detectColorChart_few_patches_no_error :
    detectColorChart 100 100 1 1
      [⟨200, 20, 50, 10, 60, [⟨3, 10, 10, 50, true, (50, 50), []⟩]⟩] =
      Except.ok ([] : List ColorPatch) ∧
    ([] : List ColorPatch).length < 1 * 1 := by
  constructor
  · norm_num [detectColorChart, labelQualifies, List.find?, patchOfContour,
      List.filterMap]
  · decide

end ColorCalib
